import Mathlib

/-!
Shallow embedding of the SpaceX launch-records dashboard
(`src/spacex-dash-app.py`).

The script loads a CSV into `spacex_df` (one row per launch: launch site,
payload mass, binary `class` outcome column, booster version category),
builds the site-dropdown option list at startup, and registers two Dash
callbacks:

* `get_pie_chart entered_site` — for `'ALL'` it builds
  `px.pie(spacex_df, values='class', names='Launch Site')`, whose plotly
  aggregation groups rows by the `names` column (in first-seen order) and
  sums the `values` column per group; otherwise it filters to the selected
  site and takes `value_counts()` of the `class` column (counts of each
  distinct value, sorted by descending count).
* `get_scatter_chart entered_site payload_range` — filters `spacex_df` to
  `low <= 'Payload Mass (kg)' <= high`, then, when a concrete site is
  selected, to `'Launch Site' == entered_site`.

We model the dataframe as a `List LaunchRecord` and the figures by the
data they plot (pie entries as label/value pairs, the scatter figure by
its retained row-set); titles and colours play no role in the claims.
-/

/-- One row of `spacex_df`: `'Launch Site'`, `'Payload Mass (kg)'`, the
binary `class` outcome column and `'Booster Version Category'`. -/
structure LaunchRecord where
  launchSite : String
  payloadMass : ℚ
  classLabel : ℕ
  boosterVersionCategory : String
deriving DecidableEq

/-- `pandas.Series.unique` / the first-seen grouping order of plotly:
distinct values in order of first appearance. -/
def pandasUnique {α : Type} [DecidableEq α] (l : List α) : List α :=
  l.foldl (fun acc x => if x ∈ acc then acc else acc ++ [x]) []

/-- Stable insertion (by strictly greater count) used to sort `value_counts`
entries by descending count. -/
def insertByCountDesc (p : ℕ × ℕ) : List (ℕ × ℕ) → List (ℕ × ℕ)
  | [] => [p]
  | q :: qs => if q.2 < p.2 then p :: q :: qs else q :: insertByCountDesc p qs

/-- Stable sort by descending count (the order `value_counts` reports). -/
def sortByCountDesc (l : List (ℕ × ℕ)) : List (ℕ × ℕ) :=
  l.foldr insertByCountDesc []

/-- `filtered_df['class'].value_counts()`: one entry per distinct value with
its multiplicity, sorted by descending count. -/
def value_counts (vals : List ℕ) : List (ℕ × ℕ) :=
  sortByCountDesc
    ((pandasUnique vals).map (fun v => (v, (vals.filter (fun x => x == v)).length)))

/-- A pie-slice label: a launch-site name in the `'ALL'` branch, a `class`
value (`0` = failure, `1` = success) in the single-site branch. -/
inductive PieLabel where
  | site (s : String)
  | cls (n : ℕ)
deriving DecidableEq

/-- `get_pie_chart(entered_site)`: the labelled values plotted by the pie
figure. `'ALL'` branch: `px.pie(spacex_df, values='class',
names='Launch Site')`, i.e. group by site (first-seen order) and sum the
`class` column per site. Single-site branch: filter to the site and plot
`value_counts()` of `class`. -/
def get_pie_chart (spacex_df : List LaunchRecord) (entered_site : String) :
    List (PieLabel × ℕ) :=
  if entered_site = "ALL" then
    (pandasUnique (spacex_df.map (·.launchSite))).map
      (fun s =>
        (PieLabel.site s,
          ((spacex_df.filter (fun r => r.launchSite == s)).map (·.classLabel)).sum))
  else
    (value_counts
        ((spacex_df.filter (fun r => r.launchSite == entered_site)).map (·.classLabel))).map
      (fun p => (PieLabel.cls p.1, p.2))

/-- `get_scatter_chart(entered_site, payload_range)`: the row-set plotted by
the scatter figure. Keep rows with `low <= 'Payload Mass (kg)' <= high`;
for a concrete site further keep rows with `'Launch Site' == entered_site`. -/
def get_scatter_chart (spacex_df : List LaunchRecord) (entered_site : String)
    (payload_range : ℚ × ℚ) : List LaunchRecord :=
  let low := payload_range.1
  let high := payload_range.2
  let filtered_payload_df :=
    spacex_df.filter (fun r => decide (low ≤ r.payloadMass) && decide (r.payloadMass ≤ high))
  if entered_site = "ALL" then
    filtered_payload_df
  else
    filtered_payload_df.filter (fun r => r.launchSite == entered_site)

/-- One entry of the site-dropdown option list. -/
structure DropdownOption where
  label : String
  value : String
deriving DecidableEq

/-- `dropdown_options`: start from the synthetic `'All Sites'/'ALL'` entry
and append one option per site of `spacex_df['Launch Site'].unique()`. -/
def dropdown_options (spacex_df : List LaunchRecord) : List DropdownOption :=
  (pandasUnique (spacex_df.map (·.launchSite))).foldl
    (fun acc site => acc ++ [⟨site, site⟩]) [⟨"All Sites", "ALL"⟩]

/-- A selector-change event delivered by Dash. A site-dropdown change fires
both callbacks (the scatter callback also reads the current slider value);
a payload-slider change fires only the scatter callback (which also reads
the current dropdown value). Each event carries the inputs the fired
callbacks read. -/
inductive DashEvent where
  | siteChanged (entered_site : String) (payload_range : ℚ × ℚ)
  | rangeChanged (entered_site : String) (payload_range : ℚ × ℚ)

/-- The process state: the module-level `spacex_df` loaded once at startup,
and the two rendered chart views. -/
structure AppState where
  spacex_df : List LaunchRecord
  pieView : List (PieLabel × ℕ)
  scatterView : List LaunchRecord

/-- One synchronous recompute-and-render cycle: the fired callbacks read
`spacex_df` and the event inputs and replace the corresponding views.
Nothing assigns to `spacex_df`. -/
def handleEvent (s : AppState) (e : DashEvent) : AppState :=
  match e with
  | .siteChanged entered_site payload_range =>
      { s with
        pieView := get_pie_chart s.spacex_df entered_site,
        scatterView := get_scatter_chart s.spacex_df entered_site payload_range }
  | .rangeChanged entered_site payload_range =>
      { s with
        scatterView := get_scatter_chart s.spacex_df entered_site payload_range }

/-- Run a whole history of selector-change events. -/
def runEvents (s : AppState) (es : List DashEvent) : AppState :=
  es.foldl handleEvent s

example :
    get_scatter_chart [⟨"A", 5, 1, "v"⟩] "ALL" (10, 0) = [] := by decide

example :
    get_scatter_chart [⟨"A", 5, 1, "v"⟩] "ALL" (0, 10) = [⟨"A", 5, 1, "v"⟩] := by decide

example :
    get_pie_chart [⟨"A", 5, 0, "v"⟩, ⟨"B", 3, 1, "v"⟩, ⟨"A", 2, 1, "v"⟩] "ALL" =
      [(.site "A", 1), (.site "B", 1)] := by decide

example :
    get_pie_chart [⟨"A", 5, 0, "v"⟩, ⟨"A", 3, 1, "v"⟩, ⟨"A", 2, 1, "v"⟩] "A" =
      [(.cls 1, 2), (.cls 0, 1)] := by decide

example :
    dropdown_options [⟨"A", 5, 0, "v"⟩, ⟨"B", 3, 1, "v"⟩, ⟨"A", 2, 1, "v"⟩] =
      [⟨"All Sites", "ALL"⟩, ⟨"A", "A"⟩, ⟨"B", "B"⟩] := by decide

/-! ## Helper theory for `pandasUnique` -/

/-- Structural companion of `pandasUnique`: the elements of `l` outside
`acc`, in order of first appearance. -/
def uniqueGo {α : Type} [DecidableEq α] : List α → List α → List α
  | [], _ => []
  | x :: xs, acc => if x ∈ acc then uniqueGo xs acc else x :: uniqueGo xs (acc ++ [x])

lemma foldl_uniqueStep_eq {α : Type} [DecidableEq α] :
    ∀ (l acc : List α),
      l.foldl (fun acc x => if x ∈ acc then acc else acc ++ [x]) acc = acc ++ uniqueGo l acc
  | [], acc => by simp [uniqueGo]
  | x :: xs, acc => by
    by_cases h : x ∈ acc
    · simp [uniqueGo, h, foldl_uniqueStep_eq xs acc]
    · simp [uniqueGo, h, foldl_uniqueStep_eq xs (acc ++ [x])]

lemma pandasUnique_eq_uniqueGo {α : Type} [DecidableEq α] (l : List α) :
    pandasUnique l = uniqueGo l [] := by
  simpa using foldl_uniqueStep_eq l []

lemma mem_uniqueGo {α : Type} [DecidableEq α] (y : α) :
    ∀ (l acc : List α), y ∈ uniqueGo l acc ↔ y ∈ l ∧ y ∉ acc
  | [], acc => by simp [uniqueGo]
  | x :: xs, acc => by
    by_cases h : x ∈ acc
    · rw [uniqueGo, if_pos h, mem_uniqueGo y xs acc]
      by_cases hyx : y = x
      · subst hyx; simp [h]
      · simp [hyx]
    · rw [uniqueGo, if_neg h]
      by_cases hyx : y = x
      · subst hyx; simp [h]
      · simp [hyx, mem_uniqueGo y xs (acc ++ [x])]

lemma nodup_uniqueGo {α : Type} [DecidableEq α] :
    ∀ (l acc : List α), (uniqueGo l acc).Nodup
  | [], acc => by simp [uniqueGo]
  | x :: xs, acc => by
    by_cases h : x ∈ acc
    · rw [uniqueGo, if_pos h]; exact nodup_uniqueGo xs acc
    · rw [uniqueGo, if_neg h]
      refine List.nodup_cons.mpr ⟨fun hx => ?_, nodup_uniqueGo xs (acc ++ [x])⟩
      have hx2 := (mem_uniqueGo x xs (acc ++ [x])).1 hx
      exact hx2.2 (by simp)

lemma mem_pandasUnique {α : Type} [DecidableEq α] {y : α} {l : List α} :
    y ∈ pandasUnique l ↔ y ∈ l := by
  rw [pandasUnique_eq_uniqueGo, mem_uniqueGo]
  simp

lemma nodup_pandasUnique {α : Type} [DecidableEq α] (l : List α) :
    (pandasUnique l).Nodup := by
  rw [pandasUnique_eq_uniqueGo]; exact nodup_uniqueGo l []

lemma pairwise_indexOf_uniqueGo {α : Type} [DecidableEq α] :
    ∀ (l acc : List α),
      (uniqueGo l acc).Pairwise (fun a b => l.indexOf a < l.indexOf b)
  | [], acc => by simp [uniqueGo]
  | x :: xs, acc => by
    by_cases h : x ∈ acc
    · rw [uniqueGo, if_pos h]
      refine (pairwise_indexOf_uniqueGo xs acc).imp_of_mem ?_
      intro a b ha hb hab
      have ha2 := (mem_uniqueGo a xs acc).1 ha
      have hb2 := (mem_uniqueGo b xs acc).1 hb
      have hax : x ≠ a := fun e => ha2.2 (e ▸ h)
      have hbx : x ≠ b := fun e => hb2.2 (e ▸ h)
      rw [List.indexOf_cons_ne xs hax, List.indexOf_cons_ne xs hbx]
      exact Nat.succ_lt_succ hab
    · rw [uniqueGo, if_neg h]
      refine List.pairwise_cons.mpr ⟨?_, ?_⟩
      · intro b hb
        have hb2 := (mem_uniqueGo b xs (acc ++ [x])).1 hb
        have hbx : x ≠ b := fun e => hb2.2 (by simp [e])
        rw [List.indexOf_cons_self, List.indexOf_cons_ne xs hbx]
        exact Nat.succ_pos _
      · refine (pairwise_indexOf_uniqueGo xs (acc ++ [x])).imp_of_mem ?_
        intro a b ha hb hab
        have ha2 := (mem_uniqueGo a xs (acc ++ [x])).1 ha
        have hb2 := (mem_uniqueGo b xs (acc ++ [x])).1 hb
        have hax : x ≠ a := fun e => ha2.2 (by simp [e])
        have hbx : x ≠ b := fun e => hb2.2 (by simp [e])
        rw [List.indexOf_cons_ne xs hax, List.indexOf_cons_ne xs hbx]
        exact Nat.succ_lt_succ hab

lemma pairwise_indexOf_pandasUnique {α : Type} [DecidableEq α] (l : List α) :
    (pandasUnique l).Pairwise (fun a b => l.indexOf a < l.indexOf b) := by
  rw [pandasUnique_eq_uniqueGo]; exact pairwise_indexOf_uniqueGo l []

/-! ## Helper lemmas: appending loops, sorting, counting -/

lemma foldl_append_singleton {α β : Type} (f : α → β) :
    ∀ (l : List α) (init : List β),
      l.foldl (fun acc x => acc ++ [f x]) init = init ++ l.map f
  | [], init => by simp
  | x :: xs, init => by
    simp [foldl_append_singleton f xs (init ++ [f x])]

lemma insertByCountDesc_perm (p : ℕ × ℕ) :
    ∀ l : List (ℕ × ℕ), List.Perm (insertByCountDesc p l) (p :: l)
  | [] => List.Perm.refl _
  | q :: qs => by
    rw [insertByCountDesc]
    by_cases h : q.2 < p.2
    · rw [if_pos h]
    · rw [if_neg h]
      exact ((insertByCountDesc_perm p qs).cons q).trans (List.Perm.swap p q qs)

lemma sortByCountDesc_perm : ∀ l : List (ℕ × ℕ), List.Perm (sortByCountDesc l) l
  | [] => List.Perm.refl _
  | x :: xs => by
    rw [sortByCountDesc, List.foldr_cons]
    exact (insertByCountDesc_perm x (sortByCountDesc xs)).trans
      ((sortByCountDesc_perm xs).cons x)

lemma value_counts_perm (vals : List ℕ) :
    List.Perm (value_counts vals)
      ((pandasUnique vals).map (fun v => (v, (vals.filter (fun x => x == v)).length))) :=
  sortByCountDesc_perm _

lemma sum_length_filter_key {α κ : Type} [DecidableEq κ] (key : α → κ) :
    ∀ (ss : List κ), ss.Nodup → ∀ (l : List α), (∀ x ∈ l, key x ∈ ss) →
      (ss.map (fun s => (l.filter (fun x => key x == s)).length)).sum = l.length
  | [], _, l, hl => by
    have : l = [] := List.eq_nil_iff_forall_not_mem.mpr (fun x hx => by simpa using hl x hx)
    simp [this]
  | s :: ss, hnd, l, hl => by
    have hs : s ∉ ss := (List.nodup_cons.mp hnd).1
    have hnd2 : ss.Nodup := (List.nodup_cons.mp hnd).2
    have hfilters : ∀ t ∈ ss,
        (l.filter (fun x => key x == t)).length =
          ((l.filter (fun x => !(key x == s))).filter (fun x => key x == t)).length := by
      intro t ht
      have hts : t ≠ s := fun e => hs (e ▸ ht)
      rw [List.filter_filter]
      congr 1
      apply List.filter_congr
      intro x _
      by_cases hx : key x = t
      · have h2 : ¬ key x = s := fun e => hts (by rw [← hx, e])
        simp [hx, h2]
        exact hts
      · simp [hx]
    have hrest : ∀ x ∈ l.filter (fun x => !(key x == s)), key x ∈ ss := by
      intro x hx
      have hx2 := List.mem_filter.mp hx
      have hmem := hl x hx2.1
      have hne : ¬ key x = s := by simpa using hx2.2
      cases List.mem_cons.mp hmem with
      | inl h => exact absurd h hne
      | inr h => exact h
    have hIH := sum_length_filter_key key ss hnd2 (l.filter (fun x => !(key x == s))) hrest
    calc ((s :: ss).map (fun t => (l.filter (fun x => key x == t)).length)).sum
        = (l.filter (fun x => key x == s)).length +
            (ss.map (fun t => (l.filter (fun x => key x == t)).length)).sum := by
          simp
      _ = (l.filter (fun x => key x == s)).length +
            (ss.map (fun t =>
              ((l.filter (fun x => !(key x == s))).filter (fun x => key x == t)).length)).sum := by
          rw [List.map_congr_left hfilters]
      _ = (l.filter (fun x => key x == s)).length +
            (l.filter (fun x => !(key x == s))).length := by rw [hIH]
      _ = l.length := (List.length_eq_length_filter_add (fun x => key x == s)).symm

lemma sum_map_classLabel_eq_length_filter :
    ∀ l : List LaunchRecord, (∀ r ∈ l, r.classLabel = 0 ∨ r.classLabel = 1) →
      (l.map (·.classLabel)).sum = (l.filter (fun r => r.classLabel == 1)).length
  | [], _ => by simp
  | r :: rs, h => by
    have hr := h r (List.mem_cons_self r rs)
    have hrs := sum_map_classLabel_eq_length_filter rs (fun x hx => h x (List.mem_cons_of_mem r hx))
    cases hr with
    | inl h0 => simp [List.filter_cons, h0, hrs]
    | inr h1 => simp [List.filter_cons, h1, hrs]; omega

lemma filter_comm_launch {p q : LaunchRecord → Bool} (l : List LaunchRecord) :
    (l.filter p).filter q = (l.filter q).filter p := by
  rw [List.filter_filter, List.filter_filter]
  apply List.filter_congr
  intro x _
  exact Bool.and_comm (q x) (p x)

lemma nodup_two_valued {u : List ℕ} (hnd : u.Nodup)
    (hsub : ∀ x ∈ u, x = 0 ∨ x = 1) : u.length ≤ 2 := by
  have hcard : u.length = u.toFinset.card := (List.toFinset_card_of_nodup hnd).symm
  have hsub2 : u.toFinset ⊆ ({0, 1} : Finset ℕ) := by
    intro x hx
    have := hsub x (List.mem_toFinset.mp hx)
    simp [this]
  have := Finset.card_le_card hsub2
  simp at this
  omega

lemma handleEvent_spacex_df (s : AppState) (e : DashEvent) :
    (handleEvent s e).spacex_df = s.spacex_df := by
  cases e <;> rfl

lemma runEvents_spacex_df :
    ∀ (es : List DashEvent) (s : AppState), (runEvents s es).spacex_df = s.spacex_df
  | [], s => rfl
  | e :: es, s => by
    rw [runEvents, List.foldl_cons]
    rw [show List.foldl handleEvent (handleEvent s e) es = runEvents (handleEvent s e) es from rfl]
    rw [runEvents_spacex_df es (handleEvent s e), handleEvent_spacex_df]

/-! ## Claims -/

/-- Claim C9 — invoking either recompute entry point (one event, or any
event history) leaves the loaded record collection `spacex_df` unchanged:
it is loaded once at startup and never mutated. -/
theorem spacex_df_never_mutated (s : AppState) (e : DashEvent) (es : List DashEvent) :
    (handleEvent s e).spacex_df = s.spacex_df ∧
    (runEvents s es).spacex_df = s.spacex_df :=
  ⟨handleEvent_spacex_df s e, runEvents_spacex_df es s⟩

/-- Claim C8 — the two recompute entry points are deterministic pure
functions of (record collection, selection): a fired callback's new view
equals the pure function of the startup `spacex_df` and the event inputs,
whatever the invocation history; in particular two invocations with
identical inputs after different histories yield identical outputs. -/
theorem callbacks_history_independent (s : AppState) (es₁ es₂ : List DashEvent)
    (entered_site : String) (payload_range : ℚ × ℚ) :
    (handleEvent (runEvents s es₁) (.siteChanged entered_site payload_range)).pieView =
      get_pie_chart s.spacex_df entered_site ∧
    (handleEvent (runEvents s es₁) (.siteChanged entered_site payload_range)).scatterView =
      get_scatter_chart s.spacex_df entered_site payload_range ∧
    (handleEvent (runEvents s es₁) (.rangeChanged entered_site payload_range)).scatterView =
      get_scatter_chart s.spacex_df entered_site payload_range ∧
    (handleEvent (runEvents s es₁) (.siteChanged entered_site payload_range)).pieView =
      (handleEvent (runEvents s es₂) (.siteChanged entered_site payload_range)).pieView ∧
    (handleEvent (runEvents s es₁) (.siteChanged entered_site payload_range)).scatterView =
      (handleEvent (runEvents s es₂) (.siteChanged entered_site payload_range)).scatterView ∧
    (handleEvent (runEvents s es₁) (.rangeChanged entered_site payload_range)).scatterView =
      (handleEvent (runEvents s es₂) (.rangeChanged entered_site payload_range)).scatterView := by
  simp [handleEvent, runEvents_spacex_df]

/-- Claim C1, counterexample — the engine does not sort or clamp an
inverted payload range: with the single record (site `A`, payload `5`),
the range `(10, 0)` retains nothing while the swapped range `(0, 10)`
retains the record. -/
theorem scatter_inverted_range_not_swap_invariant :
    get_scatter_chart [⟨"A", 5, 1, "v"⟩] "ALL" (10, 0) ≠
      get_scatter_chart [⟨"A", 5, 1, "v"⟩] "ALL" (0, 10) := by decide

/-- Claim C1, amended — when low > high the conjunction
`low ≤ payload ∧ payload ≤ high` is unsatisfiable, so the scatter-chart
filtering retains no rows at all (for every collection and site). -/
theorem scatter_inverted_range_empty (spacex_df : List LaunchRecord)
    (entered_site : String) (payload_range : ℚ × ℚ)
    (h : payload_range.2 < payload_range.1) :
    get_scatter_chart spacex_df entered_site payload_range = [] := by
  have hfil : spacex_df.filter
      (fun r => decide (payload_range.1 ≤ r.payloadMass) &&
        decide (r.payloadMass ≤ payload_range.2)) = [] := by
    apply List.filter_eq_nil_iff.mpr
    intro r _
    simp only [Bool.and_eq_true, decide_eq_true_eq, not_and]
    intro h1 h2
    exact absurd (le_trans h1 h2) (not_le.mpr h)
  simp only [get_scatter_chart, hfil]
  split <;> simp

/-- Witness for `scatter_inverted_range_empty` at a concrete input. -/
theorem scatter_inverted_range_empty_witness :
    ((10, 0) : ℚ × ℚ).2 < ((10, 0) : ℚ × ℚ).1 ∧
    get_scatter_chart [⟨"A", 5, 1, "v"⟩] "ALL" (10, 0) = [] :=
  ⟨by decide, scatter_inverted_range_empty _ _ _ (by decide)⟩

/-- Claim C5, counterexample — a collection containing a record whose
payload mass exceeds 10000 is not returned in full by
`get_scatter_chart _ "ALL" (0, 10000)`: the record is filtered out. -/
theorem scatter_full_range_not_all_records :
    get_scatter_chart [⟨"A", 20000, 1, "v"⟩] "ALL" (0, 10000) ≠
      [(⟨"A", 20000, 1, "v"⟩ : LaunchRecord)] := by decide

/-- Claim C5, amended — provided every record's payload mass lies in
[0, 10000] (true of the shipped dataset, whose payloads are non-negative
and below the slider maximum), `get_scatter_chart` with site `"ALL"` and
range `(0, 10000)` returns the full record collection unfiltered. -/
theorem scatter_full_range_returns_all (spacex_df : List LaunchRecord)
    (h : ∀ r ∈ spacex_df, 0 ≤ r.payloadMass ∧ r.payloadMass ≤ 10000) :
    get_scatter_chart spacex_df "ALL" (0, 10000) = spacex_df := by
  rw [show get_scatter_chart spacex_df "ALL" (0, 10000) =
      spacex_df.filter
        (fun r => decide ((0 : ℚ) ≤ r.payloadMass) && decide (r.payloadMass ≤ 10000)) from rfl]
  apply List.filter_eq_self.mpr
  intro r hr
  simpa using h r hr

/-- Witness for `scatter_full_range_returns_all` at a concrete input. -/
theorem scatter_full_range_returns_all_witness :
    (∀ r ∈ [(⟨"A", 5, 1, "v"⟩ : LaunchRecord)], 0 ≤ r.payloadMass ∧ r.payloadMass ≤ 10000) ∧
    get_scatter_chart [⟨"A", 5, 1, "v"⟩] "ALL" (0, 10000) = [⟨"A", 5, 1, "v"⟩] :=
  ⟨by decide, scatter_full_range_returns_all _ (by decide)⟩

/-- Claim C6 — a concrete site selection matching no record (in particular
an identifier absent from the dataset) yields empty outputs from both
callbacks, with no error: the pie chart plots no entries and the scatter
chart retains no rows. -/
theorem unknown_site_empty_outputs (spacex_df : List LaunchRecord)
    (entered_site : String) (payload_range : ℚ × ℚ)
    (hsite : entered_site ≠ "ALL")
    (habsent : ∀ r ∈ spacex_df, r.launchSite ≠ entered_site) :
    get_pie_chart spacex_df entered_site = [] ∧
    get_scatter_chart spacex_df entered_site payload_range = [] := by
  have hfil : spacex_df.filter (fun r => r.launchSite == entered_site) = [] :=
    List.filter_eq_nil_iff.mpr (fun r hr => by simpa using habsent r hr)
  constructor
  · rw [get_pie_chart, if_neg hsite, hfil]; rfl
  · simp only [get_scatter_chart, if_neg hsite]
    apply List.filter_eq_nil_iff.mpr
    intro r hr
    have hrdf : r ∈ spacex_df := (List.mem_filter.mp hr).1
    simpa using habsent r hrdf

/-- Witness for `unknown_site_empty_outputs` at a concrete input. -/
theorem unknown_site_empty_outputs_witness :
    (("B" : String) ≠ "ALL") ∧
    (∀ r ∈ [(⟨"A", 5, 1, "v"⟩ : LaunchRecord)], r.launchSite ≠ "B") ∧
    (get_pie_chart [⟨"A", 5, 1, "v"⟩] "B" = [] ∧
      get_scatter_chart [⟨"A", 5, 1, "v"⟩] "B" (0, 10000) = []) :=
  ⟨by decide, by decide,
    unknown_site_empty_outputs _ _ _ (by decide) (by decide)⟩

/-- Claim C3 — the scatter-chart row-set is exactly the records whose
payload mass lies in the closed interval [low, high], further restricted
to the selected site when it is not `"ALL"`: it equals a single filter of
the original collection (hence original order is preserved, the result is
a sublist, and each retained row is a full record still carrying its
booster version category), and membership is characterised pointwise. -/
theorem scatter_filter_characterization (spacex_df : List LaunchRecord)
    (entered_site : String) (low high : ℚ) :
    get_scatter_chart spacex_df entered_site (low, high) =
      spacex_df.filter
        (fun r => decide (low ≤ r.payloadMass ∧ r.payloadMass ≤ high ∧
          (entered_site ≠ "ALL" → r.launchSite = entered_site))) ∧
    List.Sublist (get_scatter_chart spacex_df entered_site (low, high)) spacex_df ∧
    (∀ r : LaunchRecord, r ∈ get_scatter_chart spacex_df entered_site (low, high) ↔
      (r ∈ spacex_df ∧ low ≤ r.payloadMass ∧ r.payloadMass ≤ high ∧
        (entered_site ≠ "ALL" → r.launchSite = entered_site))) := by
  have h1 : get_scatter_chart spacex_df entered_site (low, high) =
      spacex_df.filter
        (fun r => decide (low ≤ r.payloadMass ∧ r.payloadMass ≤ high ∧
          (entered_site ≠ "ALL" → r.launchSite = entered_site))) := by
    by_cases h : entered_site = "ALL"
    · subst h
      simp only [get_scatter_chart, if_pos rfl]
      apply List.filter_congr
      intro r _
      simp
    · simp only [get_scatter_chart, if_neg h, List.filter_filter]
      apply List.filter_congr
      intro r _
      simp only [beq_eq_decide, ← Bool.decide_and]
      apply decide_eq_decide.mpr
      constructor
      · rintro ⟨ha, hb, hc⟩; exact ⟨hb, hc, fun _ => ha⟩
      · rintro ⟨hb, hc, himp⟩; exact ⟨himp h, hb, hc⟩
  refine ⟨h1, ?_, ?_⟩
  · rw [h1]; exact List.filter_sublist _
  · intro r
    rw [h1, List.mem_filter]
    simp only [decide_eq_true_eq]

/-- Claim C10 — with the degenerate range low = high = v the closed
interval stays inclusive: the scatter-chart filtering retains exactly the
records whose payload mass equals v, subject to the site restriction. -/
theorem scatter_degenerate_range_eq_filter (spacex_df : List LaunchRecord)
    (entered_site : String) (v : ℚ) :
    get_scatter_chart spacex_df entered_site (v, v) =
      spacex_df.filter
        (fun r => decide (r.payloadMass = v ∧
          (entered_site ≠ "ALL" → r.launchSite = entered_site))) := by
  by_cases h : entered_site = "ALL"
  · subst h
    simp only [get_scatter_chart, if_pos rfl]
    apply List.filter_congr
    intro r _
    simp only [← Bool.decide_and]
    apply decide_eq_decide.mpr
    constructor
    · rintro ⟨ha, hb⟩; exact ⟨le_antisymm hb ha, fun hx => absurd rfl hx⟩
    · rintro ⟨ha, _⟩; exact ⟨ha.ge, ha.le⟩
  · simp only [get_scatter_chart, if_neg h, List.filter_filter]
    apply List.filter_congr
    intro r _
    simp only [beq_eq_decide, ← Bool.decide_and]
    apply decide_eq_decide.mpr
    constructor
    · rintro ⟨ha, hb, hc⟩; exact ⟨le_antisymm hc hb, fun _ => ha⟩
    · rintro ⟨ha, hb⟩; exact ⟨hb h, ha.ge, ha.le⟩

/-- Claim C7 — the startup option list has the synthetic `All Sites`/`ALL`
option first, followed by each distinct site identifier of the collection
exactly once (no duplicates, same membership as the site column), in
first-seen order (indices into the site column are strictly increasing). -/
theorem dropdown_options_spec (spacex_df : List LaunchRecord) :
    (dropdown_options spacex_df).head? = some ⟨"All Sites", "ALL"⟩ ∧
    ((dropdown_options spacex_df).tail.map (·.value)).Nodup ∧
    (∀ s : String, s ∈ (dropdown_options spacex_df).tail.map (·.value) ↔
      s ∈ spacex_df.map (·.launchSite)) ∧
    ((dropdown_options spacex_df).tail.map (·.value)).Pairwise
      (fun a b => (spacex_df.map (·.launchSite)).indexOf a <
        (spacex_df.map (·.launchSite)).indexOf b) := by
  have hopts : dropdown_options spacex_df =
      ⟨"All Sites", "ALL"⟩ ::
        (pandasUnique (spacex_df.map (·.launchSite))).map (fun s => ⟨s, s⟩) := by
    rw [dropdown_options, foldl_append_singleton]
    rfl
  have hvals : (dropdown_options spacex_df).tail.map (·.value) =
      pandasUnique (spacex_df.map (·.launchSite)) := by
    rw [hopts, List.tail_cons, List.map_map]
    exact List.map_id _
  refine ⟨by rw [hopts]; rfl, ?_, ?_, ?_⟩
  · rw [hvals]; exact nodup_pandasUnique _
  · intro s; rw [hvals]; exact mem_pandasUnique
  · rw [hvals]; exact pairwise_indexOf_pandasUnique _

/-- Claim C2, counterexample — a collection whose single record has site
`A` and `class` 0 (no success records at all) still yields a pie entry for
site `A` (with value 0): plotly's groupby-sum does not omit zero-success
sites, so the output is not "one entry per distinct site that has at least
one success record". -/
theorem pie_all_zero_success_site_entry :
    get_pie_chart [⟨"A", 1, 0, "v"⟩] "ALL" = [(PieLabel.site "A", 0)] ∧
    ([(⟨"A", 1, 0, "v"⟩ : LaunchRecord)].filter (fun r => r.classLabel == 1)) = [] := by
  decide

/-- Claim C2, amended — with a binary `class` column, the `'ALL'` pie has
one entry per distinct site present in the collection (zero-success sites
included, with value 0), the per-site value is the count of that site's
success records, the labels are distinct, and the values sum to the total
success count, hence to at most the total record count. -/
theorem pie_all_success_counts (spacex_df : List LaunchRecord)
    (hbin : ∀ r ∈ spacex_df, r.classLabel = 0 ∨ r.classLabel = 1) :
    get_pie_chart spacex_df "ALL" =
      (pandasUnique (spacex_df.map (·.launchSite))).map
        (fun s => (PieLabel.site s,
          ((spacex_df.filter (fun r => r.launchSite == s)).filter
            (fun r => r.classLabel == 1)).length)) ∧
    ((get_pie_chart spacex_df "ALL").map Prod.fst).Nodup ∧
    ((get_pie_chart spacex_df "ALL").map Prod.snd).sum =
      (spacex_df.filter (fun r => r.classLabel == 1)).length ∧
    ((get_pie_chart spacex_df "ALL").map Prod.snd).sum ≤ spacex_df.length := by
  have hpie : get_pie_chart spacex_df "ALL" =
      (pandasUnique (spacex_df.map (·.launchSite))).map
        (fun s => (PieLabel.site s,
          ((spacex_df.filter (fun r => r.launchSite == s)).filter
            (fun r => r.classLabel == 1)).length)) := by
    rw [get_pie_chart, if_pos rfl]
    apply List.map_congr_left
    intro s _
    have := sum_map_classLabel_eq_length_filter
      (spacex_df.filter (fun r => r.launchSite == s))
      (fun r hr => hbin r (List.mem_filter.mp hr).1)
    rw [this]
  have hsum : ((get_pie_chart spacex_df "ALL").map Prod.snd).sum =
      (spacex_df.filter (fun r => r.classLabel == 1)).length := by
    rw [hpie, List.map_map]
    have hcomm : (pandasUnique (spacex_df.map (·.launchSite))).map
        (Prod.snd ∘ fun s => (PieLabel.site s,
          ((spacex_df.filter (fun r => r.launchSite == s)).filter
            (fun r => r.classLabel == 1)).length)) =
        (pandasUnique (spacex_df.map (·.launchSite))).map
          (fun s => ((spacex_df.filter (fun r => r.classLabel == 1)).filter
            (fun r => r.launchSite == s)).length) := by
      apply List.map_congr_left
      intro s _
      show ((spacex_df.filter (fun r => r.launchSite == s)).filter
          (fun r => r.classLabel == 1)).length = _
      rw [filter_comm_launch]
    rw [hcomm]
    exact sum_length_filter_key (fun r => r.launchSite)
      (pandasUnique (spacex_df.map (·.launchSite))) (nodup_pandasUnique _)
      (spacex_df.filter (fun r => r.classLabel == 1))
      (fun x hx => mem_pandasUnique.mpr
        (List.mem_map.mpr ⟨x, (List.mem_filter.mp hx).1, rfl⟩))
  refine ⟨hpie, ?_, hsum, ?_⟩
  · rw [hpie, List.map_map]
    exact (nodup_pandasUnique _).map (fun a b h => by simpa using h)
  · rw [hsum]
    exact List.length_filter_le _ _

/-- Witness for `pie_all_success_counts` at a concrete input. -/
theorem pie_all_success_counts_witness :
    (∀ r ∈ [(⟨"A", 5, 0, "v"⟩ : LaunchRecord), ⟨"B", 3, 1, "v"⟩, ⟨"A", 2, 1, "v"⟩],
      r.classLabel = 0 ∨ r.classLabel = 1) ∧
    (get_pie_chart [⟨"A", 5, 0, "v"⟩, ⟨"B", 3, 1, "v"⟩, ⟨"A", 2, 1, "v"⟩] "ALL" =
        (pandasUnique
          ([(⟨"A", 5, 0, "v"⟩ : LaunchRecord), ⟨"B", 3, 1, "v"⟩,
            ⟨"A", 2, 1, "v"⟩].map (·.launchSite))).map
          (fun s => (PieLabel.site s,
            (([(⟨"A", 5, 0, "v"⟩ : LaunchRecord), ⟨"B", 3, 1, "v"⟩,
              ⟨"A", 2, 1, "v"⟩].filter (fun r => r.launchSite == s)).filter
              (fun r => r.classLabel == 1)).length)) ∧
      ((get_pie_chart [⟨"A", 5, 0, "v"⟩, ⟨"B", 3, 1, "v"⟩, ⟨"A", 2, 1, "v"⟩] "ALL").map
        Prod.fst).Nodup ∧
      ((get_pie_chart [⟨"A", 5, 0, "v"⟩, ⟨"B", 3, 1, "v"⟩, ⟨"A", 2, 1, "v"⟩] "ALL").map
        Prod.snd).sum =
        ([(⟨"A", 5, 0, "v"⟩ : LaunchRecord), ⟨"B", 3, 1, "v"⟩, ⟨"A", 2, 1, "v"⟩].filter
          (fun r => r.classLabel == 1)).length ∧
      ((get_pie_chart [⟨"A", 5, 0, "v"⟩, ⟨"B", 3, 1, "v"⟩, ⟨"A", 2, 1, "v"⟩] "ALL").map
        Prod.snd).sum ≤
        [(⟨"A", 5, 0, "v"⟩ : LaunchRecord), ⟨"B", 3, 1, "v"⟩, ⟨"A", 2, 1, "v"⟩].length) :=
  ⟨by decide, pie_all_success_counts _ (by decide)⟩

lemma value_counts_sum (vals : List ℕ) :
    ((value_counts vals).map Prod.snd).sum = vals.length := by
  rw [((value_counts_perm vals).map Prod.snd).sum_eq, List.map_map]
  exact sum_length_filter_key (fun x : ℕ => x) (pandasUnique vals)
    (nodup_pandasUnique _) vals (fun x hx => mem_pandasUnique.mpr hx)

lemma value_counts_length (vals : List ℕ) :
    (value_counts vals).length = (pandasUnique vals).length := by
  rw [(value_counts_perm vals).length_eq, List.length_map]

/-- Claim C4 — for a concrete site S with a binary `class` column, the pie
output has at most two labelled entries (the distinct `class` values 0 and
1, i.e. failure and success counts) and their values sum to the number of
records whose site is S. -/
theorem pie_site_two_entries_sum (spacex_df : List LaunchRecord) (S : String)
    (hS : S ≠ "ALL") (hbin : ∀ r ∈ spacex_df, r.classLabel = 0 ∨ r.classLabel = 1) :
    (get_pie_chart spacex_df S).length ≤ 2 ∧
    ((get_pie_chart spacex_df S).map Prod.snd).sum =
      (spacex_df.filter (fun r => r.launchSite == S)).length := by
  rw [get_pie_chart, if_neg hS]
  constructor
  · rw [List.length_map, value_counts_length]
    apply nodup_two_valued (nodup_pandasUnique _)
    intro x hx
    obtain ⟨r, hr, hrx⟩ := List.mem_map.mp (mem_pandasUnique.mp hx)
    rw [← hrx]
    exact hbin r (List.mem_filter.mp hr).1
  · rw [List.map_map]
    show ((value_counts
        ((spacex_df.filter (fun r => r.launchSite == S)).map (·.classLabel))).map
      Prod.snd).sum = _
    rw [value_counts_sum, List.length_map]

/-- Witness for `pie_site_two_entries_sum` at a concrete input. -/
theorem pie_site_two_entries_sum_witness :
    (("A" : String) ≠ "ALL") ∧
    (∀ r ∈ [(⟨"A", 5, 0, "v"⟩ : LaunchRecord), ⟨"B", 3, 1, "v"⟩, ⟨"A", 2, 1, "v"⟩],
      r.classLabel = 0 ∨ r.classLabel = 1) ∧
    ((get_pie_chart [⟨"A", 5, 0, "v"⟩, ⟨"B", 3, 1, "v"⟩, ⟨"A", 2, 1, "v"⟩] "A").length ≤ 2 ∧
      ((get_pie_chart [⟨"A", 5, 0, "v"⟩, ⟨"B", 3, 1, "v"⟩, ⟨"A", 2, 1, "v"⟩] "A").map
        Prod.snd).sum =
        ([(⟨"A", 5, 0, "v"⟩ : LaunchRecord), ⟨"B", 3, 1, "v"⟩, ⟨"A", 2, 1, "v"⟩].filter
          (fun r => r.launchSite == "A")).length) :=
  ⟨by decide, by decide, pie_site_two_entries_sum _ _ (by decide) (by decide)⟩
